import Mathlib

/-!
Shallow embedding of the Firebird-to-Parquet extractor core
(`src/extractor.rs`) and verification of its specification claims.

Modelling conventions:
* Rust `i64` values are modelled as `ℤ` (the claims never exercise i64
  overflow; the eligible primary-key ranges come from SQL `MIN`/`MAX` over
  an `i64` column, so the values and their differences stay in range).
* Rust `f64` values are modelled as `ℚ`; the `as i64` cast is truncation
  toward zero (`i64_trunc`).  Every concrete scenario evaluated below uses
  only dyadic rationals exactly representable as `f64` with exact products,
  so the rational model agrees with the floating-point computation there;
  the general coverage argument uses only the endpoint values of the
  boundary sequence, which hold under any rounding.
* Database effects (queries, channels, threads, files) are modelled by
  explicit data flow: a fetched table is its row content, a written parquet
  file is the list of rows it holds, and per-partition worker outcomes are
  `Option` values (`none` = that partition's worker reported an error).
-/

namespace FirebirdExtract

/-- Cell values returned by the database layer (`rsfbclient::SqlType`): a
closed tagged-variant type of integer, floating, text, boolean, binary and
null cells. -/
inductive SqlType where
  | Integer : ℤ → SqlType
  | Floating : ℚ → SqlType
  | Text : String → SqlType
  | Boolean : Bool → SqlType
  | Binary : List ℕ → SqlType
  | Null : SqlType
deriving DecidableEq

/-- One database row: the list of its cell values (`row.cols` with each
column's `.value` in extractor.rs). -/
structure Row where
  cols : List SqlType
deriving DecidableEq

/-- The Rust `as i64` cast on a finite, in-range `f64` value: truncation
toward zero.  On a rational `num / den` (with `den > 0`) this is the
`tdiv` of numerator by denominator.  (Rust saturates outside the `i64`
range; no value in this development leaves that range.) -/
def i64_trunc (q : ℚ) : ℤ :=
  q.num.tdiv q.den

/-- `calculate_batch_size` (extractor.rs lines 679-697): base batch tiered
by row count, reduced to two thirds when the table has a blob column,
clamped to a minimum of 100000. -/
def calculate_batch_size (row_count : ℤ) (has_blob : Bool) : ℕ :=
  let base_batch : ℕ :=
    if row_count < 200000 then 250000
    else if row_count < 10000000 then 500000
    else if row_count < 50000000 then 750000
    else 1000000
  let batch := if has_blob then base_batch * 2 / 3 else base_batch
  max batch 100000

/-- The loop body of `build_column_array` for a 64-bit integer target
column (extractor.rs lines 729-733): the value appended for one row, as a
function of that row's cell at the column index (`none` = the builder
appends null). -/
def int64_cell_value (cell : Option SqlType) : Option ℤ :=
  match cell with
  | some (SqlType.Integer v) => some v
  | some (SqlType.Floating v) => some (i64_trunc v)
  | _ => none

/-- `build_column_array` for a 64-bit integer target column (extractor.rs
lines 726-735): the builder loop appends one entry per row, in row order. -/
def build_column_int64 (rows : List Row) (col_index : ℕ) : List (Option ℤ) :=
  match rows with
  | [] => []
  | r :: rest =>
    (match r.cols.get? col_index with
      | some (SqlType.Integer v) => some v
      | some (SqlType.Floating v) => some (i64_trunc v)
      | _ => none) :: build_column_int64 rest col_index

/-- Page row-counts produced by the sequential fetch stage (extractor.rs
lines 459-485): the fetch loop repeatedly queries
`ROWS offset+1 TO offset+page_size` against a table of `total` rows and
stops at the first empty page, so with `total` standing for the rows not
yet fetched, each iteration yields `min page_size total` rows. -/
def fetch_pages (total page_size : ℕ) : List ℕ :=
  if total = 0 ∨ page_size = 0 then []
  else min page_size total :: fetch_pages (total - page_size) page_size
termination_by total
decreasing_by omega

/-- Outcome of the sequential pipeline: the returned row count and the
output file (`some n` = the file was created and finalized holding `n`
rows; the writer stage always creates it). -/
structure SeqOutcome where
  rows_extracted : ℕ
  file : Option ℕ
deriving DecidableEq

/-- `extract_sequential` (extractor.rs lines 439-546) at the data-flow
level.  `fetch_ok` is `false` when the fetch stage dies before producing
any page (connection acquisition failure, or failure of the very first
page query): in the source the orchestrator loop then receives no batch,
so zero rows are counted, while the writer thread has already created the
output file and finalizes it empty.  Each received page becomes one record
batch whose row count is the page's row count. -/
def extract_sequential (row_count : ℤ) (has_blob : Bool) (fetch_ok : Bool)
    (table_rows : ℕ) : SeqOutcome :=
  let batch_size := calculate_batch_size row_count has_blob
  let pages := if fetch_ok then fetch_pages table_rows batch_size else []
  { rows_extracted := pages.sum, file := some pages.sum }

/-- A parquet file, identified with the list of rows it stores.  (The
merge reader re-chunks batches at 100000 rows but preserves the row
sequence, so files are compared row-wise.) -/
abbrev ParquetFile := List Row

/-- `merge_parquet_files` (extractor.rs lines 629-677) as a function from
the input files' row contents to the output file's row content; `none`
means the output path is never written (the empty-input early return).
One input is copied verbatim; otherwise the first file's batches are
streamed first, then each remaining input's batches in input order. -/
def merge_parquet_files (input_files : List ParquetFile) : Option ParquetFile :=
  match input_files with
  | [] => none
  | [f] => some f
  | f :: rest => some (f ++ rest.flatten)

/-- Result collection of `extract_parallel_pk` (extractor.rs lines
372-411): `results` holds one entry per partition in index order (`none` =
that partition's worker returned an error, `some f` = it succeeded and its
temp file holds the rows `f`).  The total row count sums the succeeded
partitions' rows; only succeeded partitions with a positive row count
contribute their temp file to the merge input.  Returns the pair of
`rows_extracted` and the merged output file. -/
def extract_parallel_pk (results : List (Option ParquetFile)) :
    ℕ × Option ParquetFile :=
  let oks := results.filterMap id
  let total_rows := (oks.map List.length).sum
  let partition_files := oks.filter fun f => 0 < f.length
  (total_rows, merge_parquet_files partition_files)

/-- The partition step (extractor.rs lines 355-357): `pk_range /
parallelism` as `f64` when the range is positive, else `1.0`. -/
def pk_step (pk_min pk_max : ℤ) (parallelism : ℕ) : ℚ :=
  let pk_range := pk_max - pk_min
  if pk_range > 0 then (pk_range : ℚ) / (parallelism : ℚ) else 1

/-- Worker `i`'s lower query bound `start_pk` (extractor.rs line 375). -/
def part_start (pk_min pk_max : ℤ) (parallelism : ℕ) (i : ℕ) : ℤ :=
  pk_min + i64_trunc (pk_step pk_min pk_max parallelism * (i : ℚ))

/-- Worker `i`'s upper query bound `end_pk` (extractor.rs lines 376-380):
the true maximum for the last worker, otherwise the very expression that
is worker `i+1`'s lower bound. -/
def part_end (pk_min pk_max : ℤ) (parallelism : ℕ) (i : ℕ) : ℤ :=
  if i = parallelism - 1 then pk_max
  else part_start pk_min pk_max parallelism (i + 1)

/-- Number of table rows matched by one partition's range query
`WHERE pk >= start_pk AND pk <= end_pk` (extractor.rs lines 577-582), for
a table whose key column takes each value of `Finset.Icc t_min t_max`
exactly once. -/
def partition_row_count (t_min t_max s e : ℤ) : ℕ :=
  ((Finset.Icc t_min t_max).filter fun k => s ≤ k ∧ k ≤ e).card

/-- `PrimaryKeyInfo` (extractor.rs lines 144-150). -/
structure PrimaryKeyInfo where
  columns : List String
  min_values : List ℤ
  max_values : List ℤ
  row_count : ℤ
deriving DecidableEq

/-- Catalog facts consulted by `detect_pk` (extractor.rs lines 215-303),
given as the results its queries would return: the table's primary-key
index (if any), the index's segment column names in position order, each
column's declared `rdb$field_type` code (already defaulted to 0 when the
type lookup returns no row, as in line 258), the `COUNT` result, and the
row the `SELECT MIN, MAX` statistics query would return were it issued. -/
structure FirebirdCatalog where
  pk_index_name : Option String
  pk_column_names : List String
  field_type : String → ℤ
  row_count : ℤ
  stats_row : Option (Option ℤ × Option ℤ)

/-- `detect_pk` (extractor.rs lines 215-303): no index or no segment
columns gives `none`; a key column whose type is not 7, 8 or 16 gives
`none`; a composite key on a table of more than 10000000 rows gives the
synthetic range `[0, row_count]`; otherwise the observed MIN and MAX of
the leading key column (each defaulted to 0 when NULL, and to
`(0, row_count)` when the statistics query returns no row). -/
def detect_pk (t : FirebirdCatalog) : Option PrimaryKeyInfo :=
  match t.pk_index_name with
  | none => none
  | some _ =>
    if t.pk_column_names = [] then none
    else if ∀ c ∈ t.pk_column_names,
        t.field_type c = 7 ∨ t.field_type c = 8 ∨ t.field_type c = 16 then
      if 10000000 < t.row_count ∧ 1 < t.pk_column_names.length then
        some ⟨t.pk_column_names, [0], [t.row_count], t.row_count⟩
      else
        let mm : ℤ × ℤ :=
          match t.stats_row with
          | some (mn, mx) => (mn.getD 0, mx.getD 0)
          | none => (0, t.row_count)
        some ⟨t.pk_column_names, [mm.1], [mm.2], t.row_count⟩
    else none

/-- `extract_table` (extractor.rs lines 159-188) at the outcome level: the
pair of `rows_extracted` and whether the output file was created.  The
environment of whichever path runs is passed explicitly: per-partition
worker outcomes for the parallel path, fetch-stage health and the table's
actual content size for the sequential path. -/
def extract_table (row_count : ℤ) (pk : Option PrimaryKeyInfo)
    (partition_results : List (Option ParquetFile))
    (has_blob fetch_ok : Bool) (table_rows : ℕ) : ℕ × Bool :=
  if row_count = 0 then (0, false)
  else
    match pk with
    | some _ =>
      let r := extract_parallel_pk partition_results
      (r.1, r.2.isSome)
    | none =>
      let s := extract_sequential row_count has_blob fetch_ok table_rows
      (s.rows_extracted, s.file.isSome)

/-! Helper lemmas. -/

lemma part_start_zero (mn mx : ℤ) (N : ℕ) : part_start mn mx N 0 = mn := by
  simp [part_start, i64_trunc]

lemma partitions_cover (mn mx : ℤ) (N : ℕ) (hN : 1 ≤ N) (k : ℤ)
    (hk1 : mn ≤ k) (hk2 : k ≤ mx) :
    ∃ i, i < N ∧ part_start mn mx N i ≤ k ∧ k ≤ part_end mn mx N i := by
  have h0mem : 0 ∈ (Finset.range N).filter fun i => part_start mn mx N i ≤ k := by
    rw [Finset.mem_filter, Finset.mem_range]
    exact ⟨by omega, by rw [part_start_zero]; exact hk1⟩
  have hne : ((Finset.range N).filter fun i => part_start mn mx N i ≤ k).Nonempty :=
    ⟨0, h0mem⟩
  have himem := Finset.max'_mem _ hne
  rw [Finset.mem_filter, Finset.mem_range] at himem
  obtain ⟨hiN, hik⟩ := himem
  by_cases hlast : ((Finset.range N).filter fun i => part_start mn mx N i ≤ k).max' hne = N - 1
  · refine ⟨_, hiN, hik, ?_⟩
    unfold part_end
    rw [if_pos hlast]
    exact hk2
  · have hi1N :
        ((Finset.range N).filter fun i => part_start mn mx N i ≤ k).max' hne + 1 < N := by
      omega
    have hnot : ¬ part_start mn mx N
        (((Finset.range N).filter fun i => part_start mn mx N i ≤ k).max' hne + 1) ≤ k := by
      intro hle
      have hmem1 : ((Finset.range N).filter fun i => part_start mn mx N i ≤ k).max' hne + 1
          ∈ (Finset.range N).filter fun i => part_start mn mx N i ≤ k := by
        rw [Finset.mem_filter, Finset.mem_range]
        exact ⟨hi1N, hle⟩
      have := Finset.le_max' _ _ hmem1
      omega
  -- the largest worker whose lower bound is at or below k covers k
    refine ⟨_, hiN, hik, ?_⟩
    unfold part_end
    rw [if_neg hlast]
    exact le_of_lt (lt_of_not_le hnot)

lemma partition_filter_Icc (t_min t_max s e : ℤ) :
    ((Finset.Icc t_min t_max).filter fun k => s ≤ k ∧ k ≤ e)
      = Finset.Icc (max t_min s) (min t_max e) := by
  ext k
  simp only [Finset.mem_filter, Finset.mem_Icc, le_min_iff, max_le_iff]
  omega

lemma partition_row_count_eq (t_min t_max s e : ℤ) :
    partition_row_count t_min t_max s e = (min t_max e + 1 - max t_min s).toNat := by
  unfold partition_row_count
  rw [partition_filter_Icc, Int.card_Icc]

lemma merge_eq_none_iff (fs : List ParquetFile) :
    merge_parquet_files fs = none ↔ fs = [] := by
  match fs with
  | [] => simp [merge_parquet_files]
  | [f] => simp [merge_parquet_files]
  | f :: g :: t => simp [merge_parquet_files]

/-! Evaluation of the ACCOUNTS scenario boundaries (min 1, max 1000000,
parallelism 4): the f64 step is exactly 249999.75 and its products by 1,
2, 3 are exact, so the rational computation coincides with the source's
floating-point one. -/

lemma accounts_pk_step : pk_step 1 1000000 4 = 999999 / 4 := by
  simp [pk_step]

lemma accounts_start_0 : part_start 1 1000000 4 0 = 1 := part_start_zero 1 1000000 4

lemma accounts_start_1 : part_start 1 1000000 4 1 = 250000 := by
  unfold part_start
  rw [accounts_pk_step]
  have hn : ((999999 : ℚ) / 4 * ((1 : ℕ) : ℚ)).num = 999999 := by norm_num
  have hd : ((999999 : ℚ) / 4 * ((1 : ℕ) : ℚ)).den = 4 := by norm_num
  unfold i64_trunc
  rw [hn, hd]
  decide

lemma accounts_start_2 : part_start 1 1000000 4 2 = 500000 := by
  unfold part_start
  rw [accounts_pk_step]
  have hn : ((999999 : ℚ) / 4 * ((2 : ℕ) : ℚ)).num = 999999 := by norm_num
  have hd : ((999999 : ℚ) / 4 * ((2 : ℕ) : ℚ)).den = 2 := by norm_num
  unfold i64_trunc
  rw [hn, hd]
  decide

lemma accounts_start_3 : part_start 1 1000000 4 3 = 750000 := by
  unfold part_start
  rw [accounts_pk_step]
  have hn : ((999999 : ℚ) / 4 * ((3 : ℕ) : ℚ)).num = 2999997 := by norm_num
  have hd : ((999999 : ℚ) / 4 * ((3 : ℕ) : ℚ)).den = 4 := by norm_num
  unfold i64_trunc
  rw [hn, hd]
  decide

lemma accounts_start_4 : part_start 1 1000000 4 4 = 1000000 := by
  unfold part_start
  rw [accounts_pk_step]
  have hn : ((999999 : ℚ) / 4 * ((4 : ℕ) : ℚ)).num = 999999 := by norm_num
  have hd : ((999999 : ℚ) / 4 * ((4 : ℕ) : ℚ)).den = 1 := by norm_num
  unfold i64_trunc
  rw [hn, hd]
  decide

lemma accounts_end_0 : part_end 1 1000000 4 0 = 250000 := by
  unfold part_end
  rw [if_neg (by decide)]
  exact accounts_start_1

lemma accounts_end_1 : part_end 1 1000000 4 1 = 500000 := by
  unfold part_end
  rw [if_neg (by decide)]
  exact accounts_start_2

lemma accounts_end_2 : part_end 1 1000000 4 2 = 750000 := by
  unfold part_end
  rw [if_neg (by decide)]
  exact accounts_start_3

lemma accounts_end_3 : part_end 1 1000000 4 3 = 1000000 := by
  unfold part_end
  rw [if_pos (by decide)]

lemma fetch_pages_600000_500000 : fetch_pages 600000 500000 = [500000, 100000] := by
  rw [fetch_pages]
  norm_num
  rw [fetch_pages]
  norm_num
  rw [fetch_pages]
  norm_num

/-! Claim theorems. -/

/-- C1 counterexample (claim as stated is false): in the ACCOUNTS scenario
(integer key 1..1000000, row count 1000000, parallelism 4) the boundary
key 250000 satisfies both partition 0's and partition 1's range query, so
there is no unique selecting partition, and the merged output's row count
is the sum of the four partitions' matched rows, which is not 1000000. -/
theorem accounts_scenario_counterexample :
    ¬ (∃! i : ℕ, i < 4 ∧ part_start 1 1000000 4 i ≤ 250000
        ∧ (250000 : ℤ) ≤ part_end 1 1000000 4 i)
    ∧ partition_row_count 1 1000000 (part_start 1 1000000 4 0) (part_end 1 1000000 4 0)
        + partition_row_count 1 1000000 (part_start 1 1000000 4 1) (part_end 1 1000000 4 1)
        + partition_row_count 1 1000000 (part_start 1 1000000 4 2) (part_end 1 1000000 4 2)
        + partition_row_count 1 1000000 (part_start 1 1000000 4 3) (part_end 1 1000000 4 3)
      ≠ 1000000 := by
  constructor
  · rintro ⟨i, hi, huniq⟩
    have h0 := huniq 0 ⟨by decide, by rw [accounts_start_0]; decide,
      by rw [accounts_end_0]⟩
    have h1 := huniq 1 ⟨by decide, by rw [accounts_start_1],
      by rw [accounts_end_1]; decide⟩
    omega
  · simp only [accounts_start_0, accounts_end_0, accounts_start_1, accounts_end_1,
      accounts_start_2, accounts_end_2, accounts_start_3, accounts_end_3,
      partition_row_count_eq]
    decide

/-- C1 amended: worker `i`'s range query has BOTH bounds inclusive and its
upper bound equals worker `i+1`'s lower bound, so the ACCOUNTS scenario's
ranges are [1,250000], [250000,500000], [500000,750000], [750000,1000000];
every key in [1,1000000] is selected by at least one partition, but each
interior boundary key is selected by two adjacent partitions, and the
merged output row count is 1000003. -/
theorem accounts_scenario_amended :
    (∀ (mn mx : ℤ) (N i : ℕ), i + 1 < N →
        part_end mn mx N i = part_start mn mx N (i + 1))
    ∧ (part_start 1 1000000 4 0 = 1 ∧ part_end 1 1000000 4 0 = 250000
        ∧ part_start 1 1000000 4 1 = 250000 ∧ part_end 1 1000000 4 1 = 500000
        ∧ part_start 1 1000000 4 2 = 500000 ∧ part_end 1 1000000 4 2 = 750000
        ∧ part_start 1 1000000 4 3 = 750000 ∧ part_end 1 1000000 4 3 = 1000000)
    ∧ (∀ k : ℤ, 1 ≤ k → k ≤ 1000000 →
        ∃ i, i < 4 ∧ part_start 1 1000000 4 i ≤ k ∧ k ≤ part_end 1 1000000 4 i)
    ∧ partition_row_count 1 1000000 (part_start 1 1000000 4 0) (part_end 1 1000000 4 0)
        + partition_row_count 1 1000000 (part_start 1 1000000 4 1) (part_end 1 1000000 4 1)
        + partition_row_count 1 1000000 (part_start 1 1000000 4 2) (part_end 1 1000000 4 2)
        + partition_row_count 1 1000000 (part_start 1 1000000 4 3) (part_end 1 1000000 4 3)
      = 1000003 := by
  refine ⟨?_, ?_, ?_, ?_⟩
  · intro mn mx N i hi
    unfold part_end
    rw [if_neg (by omega)]
  · exact ⟨accounts_start_0, accounts_end_0, accounts_start_1, accounts_end_1,
      accounts_start_2, accounts_end_2, accounts_start_3, accounts_end_3⟩
  · intro k hk1 hk2
    exact partitions_cover 1 1000000 4 (by decide) k hk1 hk2
  · simp only [accounts_start_0, accounts_end_0, accounts_start_1, accounts_end_1,
      accounts_start_2, accounts_end_2, accounts_start_3, accounts_end_3,
      partition_row_count_eq]
    decide

/-- C1 amended witness: abutment and coverage instantiated at concrete
inputs with every hypothesis discharged. -/
theorem accounts_scenario_amended_witness :
    ((0 : ℕ) + 1 < 4 ∧ part_end 1 1000000 4 0 = part_start 1 1000000 4 (0 + 1))
    ∧ ((1 : ℤ) ≤ 250000 ∧ (250000 : ℤ) ≤ 1000000
        ∧ ∃ i, i < 4 ∧ part_start 1 1000000 4 i ≤ 250000
            ∧ (250000 : ℤ) ≤ part_end 1 1000000 4 i) :=
  ⟨⟨by decide, accounts_scenario_amended.1 1 1000000 4 0 (by decide)⟩,
    ⟨by decide, by decide,
      accounts_scenario_amended.2.2.1 250000 (by decide) (by decide)⟩⟩

/-- C2: for every eligible primary-key range [min, max] and every worker
count N ≥ 1, the union of the N computed partition ranges covers all of
[min, max], the last partition's upper bound is exactly max, and when the
range collapses (min = max) the step is treated as 1. -/
theorem parallel_partitions_cover_range (mn mx : ℤ) (N : ℕ)
    (hN : 1 ≤ N) (_hrange : mn ≤ mx) :
    (∀ k : ℤ, mn ≤ k → k ≤ mx →
        ∃ i, i < N ∧ part_start mn mx N i ≤ k ∧ k ≤ part_end mn mx N i)
    ∧ part_end mn mx N (N - 1) = mx
    ∧ (mn = mx → pk_step mn mx N = 1) := by
  refine ⟨fun k hk1 hk2 => partitions_cover mn mx N hN k hk1 hk2, ?_, ?_⟩
  · unfold part_end
    rw [if_pos rfl]
  · intro h
    simp [pk_step, h]

/-- C2 witness: the coverage theorem applied at min 1, max 10, N 3. -/
theorem parallel_partitions_cover_range_witness :
    (1 : ℕ) ≤ 3 ∧ (1 : ℤ) ≤ 10
    ∧ ((∀ k : ℤ, 1 ≤ k → k ≤ 10 →
          ∃ i, i < 3 ∧ part_start 1 10 3 i ≤ k ∧ k ≤ part_end 1 10 3 i)
        ∧ part_end 1 10 3 (3 - 1) = 10
        ∧ ((1 : ℤ) = 10 → pk_step 1 10 3 = 1)) :=
  ⟨by decide, by decide,
    parallel_partitions_cover_range 1 10 3 (by decide) (by decide)⟩

/-- C3: merge_files on an empty input list writes no output; on exactly
one input it copies that file verbatim; on K ≥ 2 inputs the output is the
concatenation of the inputs in input-list order, so its row count is the
sum of the inputs' row counts and each input's rows appear contiguously. -/
theorem merge_parquet_files_spec :
    merge_parquet_files [] = none
    ∧ (∀ f : ParquetFile, merge_parquet_files [f] = some f)
    ∧ (∀ fs : List ParquetFile, 2 ≤ fs.length →
        merge_parquet_files fs = some fs.flatten
        ∧ fs.flatten.length = (fs.map List.length).sum) := by
  refine ⟨rfl, fun f => rfl, fun fs hfs => ⟨?_, ?_⟩⟩
  · match fs with
    | [] => simp at hfs
    | [f] => simp at hfs
    | f :: g :: rest => rfl
  · exact List.length_flatten fs

/-- C3 witness: the K ≥ 2 case applied to two concrete one-row files. -/
theorem merge_parquet_files_spec_witness :
    2 ≤ ([[Row.mk [SqlType.Null]], [Row.mk []]] : List ParquetFile).length
    ∧ merge_parquet_files [[Row.mk [SqlType.Null]], [Row.mk []]]
        = some [Row.mk [SqlType.Null], Row.mk []]
    ∧ ([[Row.mk [SqlType.Null]], [Row.mk []]] : List ParquetFile).flatten.length
        = ([[Row.mk [SqlType.Null]], [Row.mk []]].map List.length).sum := by
  have h := merge_parquet_files_spec.2.2 [[Row.mk [SqlType.Null]], [Row.mk []]]
    (by decide)
  exact ⟨by decide, by rw [h.1]; rfl, h.2⟩

/-- C4: calculate_batch_size is monotone non-decreasing in row_count, a
blob flag never increases it, and it never returns less than 100000. -/
theorem calculate_batch_size_spec :
    (∀ (r1 r2 : ℤ) (b : Bool), r1 ≤ r2 →
        calculate_batch_size r1 b ≤ calculate_batch_size r2 b)
    ∧ (∀ r : ℤ, calculate_batch_size r true ≤ calculate_batch_size r false)
    ∧ (∀ (r : ℤ) (b : Bool), 100000 ≤ calculate_batch_size r b) := by
  refine ⟨?_, ?_, ?_⟩
  · intro r1 r2 b h
    cases b <;> simp only [calculate_batch_size] <;> split_ifs <;> omega
  · intro r
    simp only [calculate_batch_size]
    split_ifs <;> omega
  · intro r b
    cases b <;> simp only [calculate_batch_size] <;> split_ifs <;> omega

/-- C4 witness: monotonicity across the 200000 tier boundary with the
hypothesis discharged, plus the blob reduction and lower bound there. -/
theorem calculate_batch_size_spec_witness :
    (100 : ℤ) ≤ 300000
    ∧ calculate_batch_size 100 true ≤ calculate_batch_size 300000 true
    ∧ calculate_batch_size 300000 true ≤ calculate_batch_size 300000 false
    ∧ 100000 ≤ calculate_batch_size 300000 true :=
  ⟨by decide, calculate_batch_size_spec.1 100 300000 true (by decide),
    calculate_batch_size_spec.2.1 300000, calculate_batch_size_spec.2.2 300000 true⟩

/-- C5 counterexample (claim as stated is false): for the LOG scenario
(600000 rows, no blob) the computed batch/page size is 500000, not 250000
(600000 is not below the 200000 tier), and the fetched pages are
[500000, 100000], not three pages of 250000, 250000 and 100000. -/
theorem log_scenario_counterexample :
    calculate_batch_size 600000 false ≠ 250000
    ∧ fetch_pages 600000 (calculate_batch_size 600000 false)
        ≠ [250000, 250000, 100000] := by
  have hb : calculate_batch_size 600000 false = 500000 := by decide
  refine ⟨by decide, ?_⟩
  rw [hb, fetch_pages_600000_500000]
  decide

/-- C5 amended: for the LOG scenario the computed batch/page size is
500000, the sequential pipeline fetches 2 pages of 500000 and 100000 rows,
and produces one output file with all 600000 rows. -/
theorem log_scenario_amended :
    calculate_batch_size 600000 false = 500000
    ∧ fetch_pages 600000 (calculate_batch_size 600000 false) = [500000, 100000]
    ∧ (extract_sequential 600000 false true 600000).rows_extracted = 600000
    ∧ (extract_sequential 600000 false true 600000).file = some 600000 := by
  have hb : calculate_batch_size 600000 false = 500000 := by decide
  have hp : fetch_pages 600000 (calculate_batch_size 600000 false) = [500000, 100000] := by
    rw [hb, fetch_pages_600000_500000]
  refine ⟨hb, hp, ?_, ?_⟩
  · simp only [extract_sequential, if_pos, hp]
    decide
  · simp only [extract_sequential, if_pos, hp]
    decide

/-- C6: a 64-bit integer target column maps every native integer cell to
its value, every floating cell to its truncation toward zero, and every
other or missing cell to null, and produces exactly one entry per input
row in input-row order. -/
theorem build_column_int64_spec :
    ∀ (rows : List Row) (col_index : ℕ),
      (build_column_int64 rows col_index).length = rows.length
      ∧ (∀ i : ℕ, (build_column_int64 rows col_index).get? i
          = (rows.get? i).map fun r => int64_cell_value (r.cols.get? col_index))
      ∧ (∀ v : ℤ, int64_cell_value (some (SqlType.Integer v)) = some v)
      ∧ (∀ v : ℚ, int64_cell_value (some (SqlType.Floating v)) = some (i64_trunc v))
      ∧ (∀ s, int64_cell_value (some (SqlType.Text s)) = none)
      ∧ (∀ b, int64_cell_value (some (SqlType.Boolean b)) = none)
      ∧ (∀ bs, int64_cell_value (some (SqlType.Binary bs)) = none)
      ∧ int64_cell_value (some SqlType.Null) = none
      ∧ int64_cell_value none = none := by
  intro rows ci
  refine ⟨?_, ?_, fun v => rfl, fun v => rfl, fun s => rfl, fun b => rfl,
    fun bs => rfl, rfl, rfl⟩
  · induction rows with
    | nil => rfl
    | cons r rest ih => simpa [build_column_int64] using ih
  · intro i
    induction rows generalizing i with
    | nil => cases i <;> rfl
    | cons r rest ih =>
      cases i with
      | zero => rfl
      | succ n => simpa [build_column_int64] using ih n

/-- C7: detect_pk returns none whenever any key column's declared type is
not one of the integral codes 7, 8, 16; for an eligible key it returns the
synthetic range [0, row_count] without consulting the MIN/MAX statistics
when the table exceeds 10000000 rows and the key is composite (the result
is invariant under any statistics value); otherwise it returns the
observed MIN and MAX of the leading key column. -/
theorem detect_pk_spec :
    ∀ t : FirebirdCatalog,
      ((∃ c ∈ t.pk_column_names,
          t.field_type c ≠ 7 ∧ t.field_type c ≠ 8 ∧ t.field_type c ≠ 16) →
        detect_pk t = none)
      ∧ (t.pk_index_name ≠ none → t.pk_column_names ≠ [] →
          (∀ c ∈ t.pk_column_names,
            t.field_type c = 7 ∨ t.field_type c = 8 ∨ t.field_type c = 16) →
          ((10000000 < t.row_count → 1 < t.pk_column_names.length →
              detect_pk t
                = some ⟨t.pk_column_names, [0], [t.row_count], t.row_count⟩
              ∧ ∀ s, detect_pk { t with stats_row := s } = detect_pk t)
            ∧ (¬ (10000000 < t.row_count ∧ 1 < t.pk_column_names.length) →
              ∀ mn mx : ℤ, t.stats_row = some (some mn, some mx) →
                detect_pk t
                  = some ⟨t.pk_column_names, [mn], [mx], t.row_count⟩))) := by
  intro t
  constructor
  · rintro ⟨c, hc, h7, h8, h16⟩
    unfold detect_pk
    cases hidx : t.pk_index_name with
    | none => rfl
    | some idx =>
      have hnall : ¬ ∀ c ∈ t.pk_column_names,
          t.field_type c = 7 ∨ t.field_type c = 8 ∨ t.field_type c = 16 := by
        intro hall
        rcases hall c hc with h | h | h
        · exact h7 h
        · exact h8 h
        · exact h16 h
      by_cases hnil : t.pk_column_names = []
      · rw [if_pos hnil]
      · rw [if_neg hnil, if_neg hnall]
  · intro hidx hnil hall
    cases hidxe : t.pk_index_name with
    | none => exact absurd hidxe hidx
    | some idx =>
      constructor
      · intro hbig hcomp
        constructor
        · unfold detect_pk
          rw [hidxe]
          rw [if_neg hnil, if_pos hall, if_pos ⟨hbig, hcomp⟩]
        · intro s
          unfold detect_pk
          simp only [hidxe]
          rw [if_neg hnil, if_pos hall, if_pos ⟨hbig, hcomp⟩,
            if_neg hnil, if_pos hall, if_pos ⟨hbig, hcomp⟩]
      · intro hnotbig mn mx hstats
        unfold detect_pk
        rw [hidxe]
        rw [if_neg hnil, if_pos hall, if_neg hnotbig, hstats]
        rfl

/-- Concrete catalog with a non-integral key column (VARCHAR code 37). -/
def catalogBadType : FirebirdCatalog :=
  ⟨some "PK_A", ["ID", "NAME"], fun c => if c = "NAME" then 37 else 8, 500,
    some (some 1, some 500)⟩

/-- Concrete catalog with a composite integral key on a 20000000-row
table. -/
def catalogBigComposite : FirebirdCatalog :=
  ⟨some "PK_B", ["A", "B"], fun _ => 16, 20000000, some (some 3, some 99)⟩

/-- Concrete catalog with a single integral key column on a small table. -/
def catalogSimple : FirebirdCatalog :=
  ⟨some "PK_C", ["ID"], fun _ => 8, 1000, some (some 11, some 420)⟩

/-- C7 witness: the three branches applied to concrete catalogs with every
hypothesis discharged. -/
theorem detect_pk_spec_witness :
    detect_pk catalogBadType = none
    ∧ detect_pk catalogBigComposite = some ⟨["A", "B"], [0], [20000000], 20000000⟩
    ∧ detect_pk { catalogBigComposite with stats_row := none }
        = detect_pk catalogBigComposite
    ∧ detect_pk catalogSimple = some ⟨["ID"], [11], [420], 1000⟩ := by
  have h1 := (detect_pk_spec catalogBadType).1
    ⟨"NAME", by decide, by decide, by decide, by decide⟩
  have h2 := ((detect_pk_spec catalogBigComposite).2 (by decide) (by decide)
    (by decide)).1 (by decide) (by decide)
  have h3 := ((detect_pk_spec catalogSimple).2 (by decide) (by decide)
    (by decide)).2 (by decide) 11 420 rfl
  exact ⟨h1, h2.1, h2.2 none, h3⟩

/-- C8: for every table whose metadata reports zero rows, extract_table
returns rows_extracted = 0 and creates no output file, before either
extraction path runs (whatever environment that path would have seen). -/
theorem extract_table_zero_rows :
    ∀ (pk : Option PrimaryKeyInfo) (partition_results : List (Option ParquetFile))
      (has_blob fetch_ok : Bool) (table_rows : ℕ),
      extract_table 0 pk partition_results has_blob fetch_ok table_rows = (0, false) := by
  intro pk results hb fo tr
  simp [extract_table]

/-- C9: extract_parallel_pk's result collection: rows_extracted is the sum
of the succeeded partitions' row counts; the merge input omits failed and
zero-row partitions, so no output file exists exactly when every succeeded
partition is empty; and when every partition fails the result is zero rows
with no output file (the merge is a no-op). -/
theorem extract_parallel_pk_spec :
    ∀ results : List (Option ParquetFile),
      (extract_parallel_pk results).1 = ((results.filterMap id).map List.length).sum
      ∧ ((extract_parallel_pk results).2
          = merge_parquet_files
              ((results.filterMap id).filter fun f => 0 < f.length))
      ∧ ((extract_parallel_pk results).2 = none ↔
          ∀ f : ParquetFile, some f ∈ results → f = [])
      ∧ ((∀ r ∈ results, r = none) → extract_parallel_pk results = (0, none)) := by
  intro results
  refine ⟨rfl, rfl, ?_, ?_⟩
  · have h2 : (extract_parallel_pk results).2
        = merge_parquet_files ((results.filterMap id).filter fun f => 0 < f.length) :=
      rfl
    rw [h2, merge_eq_none_iff, List.filter_eq_nil_iff]
    constructor
    · intro h f hf
      have hmem : f ∈ results.filterMap id := by
        rw [List.mem_filterMap]
        exact ⟨some f, hf, rfl⟩
      have := h f hmem
      simp only [decide_eq_true_eq, not_lt, Nat.le_zero] at this
      exact List.length_eq_zero.mp this
    · intro h f hf
      rw [List.mem_filterMap] at hf
      obtain ⟨a, ha, hid⟩ := hf
      cases a with
      | none => simp at hid
      | some g =>
        have hg : g = f := by simpa using hid
        subst hg
        have := h g ha
        subst this
        simp
  · intro hall
    have hnil : results.filterMap id = [] := by
      rw [List.filterMap_eq_nil_iff]
      intro a ha
      rw [hall a ha]
      rfl
    simp [extract_parallel_pk, hnil, merge_parquet_files]

/-- C9 witness: the all-partitions-fail case at a concrete outcome list,
with the hypothesis discharged. -/
theorem extract_parallel_pk_spec_witness :
    (∀ r ∈ ([none, none, none] : List (Option ParquetFile)), r = none)
    ∧ extract_parallel_pk [none, none, none] = (0, none) :=
  ⟨by decide, (extract_parallel_pk_spec [none, none, none]).2.2.2 (by decide)⟩

/-- C10: when the sequential fetch stage dies before producing its first
page (connection acquisition failure or first page-query failure), the
writer stage still creates and finalizes the output file, and the pipeline
returns rows_extracted = 0 with an empty output file rather than an
error. -/
theorem extract_sequential_fetch_failure :
    ∀ (row_count : ℤ) (has_blob : Bool) (table_rows : ℕ),
      (extract_sequential row_count has_blob false table_rows).rows_extracted = 0
      ∧ (extract_sequential row_count has_blob false table_rows).file = some 0 := by
  intro rc hb tr
  constructor <;> simp [extract_sequential]

end FirebirdExtract
